import Mathlib

/-!
# gosqlite: blob I/O adapter and database/sql driver adapter

A shallow embedding of `blob.go` and `driver.go`.  The host is taken to be a
64-bit Go platform: the Go type `int` is a 64-bit signed integer and the C type
`int` is a 32-bit signed integer.  Pointers into engine-owned objects are
modelled by passing the pointed-to state explicitly.
-/

namespace Sqlite

/-! ## Machine integers -/

/-- The conversion `C.int(x)` of a Go integer to the 32-bit signed C `int`:
the low 32 bits are kept. -/
def cint (x : Int) : Int := (x + 2147483648) % 4294967296 - 2147483648

/-- A value of the Go type `int` (64-bit signed): the low 64 bits are kept. -/
def goInt (x : Int) : Int :=
  (x + 9223372036854775808) % 18446744073709551616 - 9223372036854775808

/-- Go addition on `int` (the operator behind `+=`). -/
def goAdd (a b : Int) : Int := goInt (a + b)

/-- The values a Go `int` field can hold. -/
def IsGoInt (x : Int) : Prop := -9223372036854775808 ≤ x ∧ x < 9223372036854775808

instance (x : Int) : Decidable (IsGoInt x) := by
  unfold IsGoInt; exact inferInstance

/-! ## Engine status codes (sqlite3.h) -/

def SQLITE_OK : Int := 0
def SQLITE_ERROR : Int := 1
def SQLITE_BUSY : Int := 5
def SQLITE_LOCKED : Int := 6
def SQLITE_READONLY : Int := 8
def SQLITE_MISMATCH : Int := 20
def SQLITE_MISUSE : Int := 21
def SQLITE_RANGE : Int := 25

/-! ## Go errors -/

/-- Go `error` values met in the adapter: `errors.New(text)`, the value built by
`Conn.error(rv)` from an engine status, and `io.EOF`. -/
inductive GoError where
  | new (text : String)
  | engine (code : Int)
  | EOF
  deriving DecidableEq, Repr

abbrev Byte := Fin 256

/-- The engine session behind a `*Conn`: the two connection-wide counters the
driver adapter reads (`sqlite3_last_insert_rowid`, `sqlite3_changes`). -/
structure Conn where
  lastInsertRowid : Int
  changes : Int
  deriving DecidableEq, Repr

/-- Modelled from the spec: `Conn.error` (sqlite.go, not under src/) turns an
engine status code into an `EngineError` value that carries the status code. -/
def Conn.error (_c : Conn) (rv : Int) : GoError := GoError.engine rv

/-! ## The engine side of incremental blob I/O -/

/-- The engine object behind a `*C.sqlite3_blob`: the fixed-size payload of the
cell and whether the handle was opened for writing. -/
structure Sqlite3Blob where
  data : List Byte
  writable : Bool
  deriving DecidableEq, Repr

/-- The engine calls whose occurrence matters to the adapter's contract. -/
inductive EngineCall where
  | blob_open (db table column : String) (row : Int) (flags : Int)
  | blob_close (bl : Option Sqlite3Blob)
  deriving DecidableEq, Repr

/-- The embedded engine as the blob adapter sees it.  Each field is one C entry
point; a null handle is `none`.  `blob_read` receives the destination buffer and
returns it as the engine left it; `blob_write` returns the handle's new state. -/
structure Engine where
  blob_open : String → String → String → Int → Int → Int × Option Sqlite3Blob
  blob_close : Option Sqlite3Blob → Int
  blob_reopen : Option Sqlite3Blob → Int → Int × Option Sqlite3Blob
  blob_read : Option Sqlite3Blob → List Byte → Int → Int → Int × List Byte
  blob_write : Option Sqlite3Blob → List Byte → Int → Int → Int × Option Sqlite3Blob

/-- Modelled from the spec: the engine's `sqlite3_blob_read(bl, z, n, iOffset)`
(external C library).  It fills the full requested length starting at the
offset; a window outside the blob's bounds fails with a range error and nothing
is read.  A null handle is a misuse. -/
def sqlite3_blob_read (bl : Option Sqlite3Blob) (z : List Byte) (n iOffset : Int) :
    Int × List Byte :=
  match bl with
  | none => (SQLITE_MISUSE, z)
  | some b =>
    if n < 0 ∨ iOffset < 0 ∨ iOffset + n > b.data.length then (SQLITE_ERROR, z)
    else (SQLITE_OK, (b.data.drop iOffset.toNat).take n.toNat ++ z.drop n.toNat)

/-- Modelled from the spec: the engine's `sqlite3_blob_write(bl, z, n, iOffset)`
(external C library).  It writes the first `n` bytes of `z` at the offset; a
window that would extend past the blob's fixed length fails and nothing is
written (no auto-grow).  A read-only handle cannot be written. -/
def sqlite3_blob_write (bl : Option Sqlite3Blob) (z : List Byte) (n iOffset : Int) :
    Int × Option Sqlite3Blob :=
  match bl with
  | none => (SQLITE_MISUSE, none)
  | some b =>
    if n < 0 ∨ iOffset < 0 ∨ iOffset + n > b.data.length then (SQLITE_ERROR, some b)
    else if b.writable = false then (SQLITE_READONLY, some b)
    else (SQLITE_OK, some { b with
      data := b.data.take iOffset.toNat ++ z.take n.toNat
                ++ b.data.drop (iOffset.toNat + n.toNat) })

/-- Modelled from the spec: the helper `btocint` (not under src/), the writable
flag as a C `int`. -/
def btocint (b : Bool) : Int := if b then 1 else 0

/-! ## blob.go -/

/-- Reader adapter to BLOB. -/
structure BlobReader where
  c : Conn
  bl : Option Sqlite3Blob
  ReadOffset : Int
  deriving DecidableEq, Repr

/-- ReadWriter adapter to BLOB (embeds `BlobReader`). -/
structure BlobReadWriter extends BlobReader where
  WriteOffset : Int
  deriving DecidableEq, Repr

/-- `Conn.blob_open`: the handle or the error, together with the engine calls
made, in order. -/
def Conn.blob_open (E : Engine) (c : Conn) (db table column : String) (row : Int)
    (write : Bool) : (Option Sqlite3Blob × Option GoError) × List EngineCall :=
  let opened := EngineCall.blob_open db table column row (btocint write)
  let (rv, bl) := E.blob_open db table column row (btocint write)
  if rv ≠ SQLITE_OK then
    match bl with
    | some h => ((none, some (c.error rv)), [opened, EngineCall.blob_close (some h)])
    | none => ((none, some (c.error rv)), [opened])
  else
    match bl with
    | none => ((none, some (GoError.new "sqlite succeeded without returning a blob")), [opened])
    | some h => ((some h, none), [opened])

/-- `Conn.NewBlobReader` opens a BLOB for incremental I/O. -/
def Conn.NewBlobReader (E : Engine) (c : Conn) (db table column : String) (row : Int) :
    Option BlobReader × Option GoError :=
  match (c.blob_open E db table column row false).1 with
  | (_, some err) => (none, some err)
  | (bl, none) => (some { c := c, bl := bl, ReadOffset := 0 }, none)

/-- `Conn.NewBlobReadWriter` opens a BLOB for incremental I/O. -/
def Conn.NewBlobReadWriter (E : Engine) (c : Conn) (db table column : String) (row : Int) :
    Option BlobReadWriter × Option GoError :=
  match (c.blob_open E db table column row true).1 with
  | (_, some err) => (none, some err)
  | (bl, none) => (some { c := c, bl := bl, ReadOffset := 0, WriteOffset := 0 }, none)

/-- The outcome of `BlobReader.Close`: the returned error, the receiver
afterwards and the engine calls made. -/
structure CloseResult where
  err : Option GoError
  reader : Option BlobReader
  calls : List EngineCall
  deriving DecidableEq, Repr

/-- `BlobReader.Close` closes a BLOB handle.  The receiver may be nil. -/
def BlobReader.Close (E : Engine) (r : Option BlobReader) : CloseResult :=
  match r with
  | none => { err := some (GoError.new "nil sqlite blob reader"), reader := none, calls := [] }
  | some r =>
    let rv := E.blob_close r.bl
    if rv ≠ SQLITE_OK then
      { err := some (r.c.error rv), reader := some r, calls := [EngineCall.blob_close r.bl] }
    else
      { err := none, reader := some { r with bl := none },
        calls := [EngineCall.blob_close r.bl] }

/-- `BlobReader.Read` reads data from a BLOB incrementally: the returned pair,
the buffer afterwards and the receiver afterwards. -/
def BlobReader.Read (E : Engine) (r : BlobReader) (v : List Byte) :
    (Int × Option GoError) × List Byte × BlobReader :=
  let (rv, v') := E.blob_read r.bl v (cint v.length) (cint r.ReadOffset)
  if rv ≠ SQLITE_OK then ((0, some (r.c.error rv)), v', r)
  else ((v.length, none), v', { r with ReadOffset := goAdd r.ReadOffset v.length })

/-- `BlobReadWriter.Write` writes data into a BLOB incrementally: the returned
pair and the receiver afterwards. -/
def BlobReadWriter.Write (E : Engine) (w : BlobReadWriter) (v : List Byte) :
    (Int × Option GoError) × BlobReadWriter :=
  let (rv, bl') := E.blob_write w.bl v (cint v.length) (cint w.WriteOffset)
  if rv ≠ SQLITE_OK then ((0, some (w.c.error rv)), { w with bl := bl' })
  else ((v.length, none), { w with bl := bl', WriteOffset := goAdd w.WriteOffset v.length })

/-- `BlobReader.Reopen` moves a BLOB handle to a new row. -/
def BlobReader.Reopen (E : Engine) (r : BlobReader) (rowid : Int) :
    Option GoError × BlobReader :=
  let (rv, bl') := E.blob_reopen r.bl rowid
  if rv ≠ SQLITE_OK then (some (r.c.error rv), { r with bl := bl' })
  else (none, { r with bl := bl', ReadOffset := 0 })

/-- `Reopen` called on a `BlobReadWriter`: the method is promoted from the
embedded `BlobReader` and acts on that part only. -/
def BlobReadWriter.Reopen (E : Engine) (w : BlobReadWriter) (rowid : Int) :
    Option GoError × BlobReadWriter :=
  let (err, r') := w.toBlobReader.Reopen E rowid
  (err, { w with toBlobReader := r' })

/-- `Read` called on a `BlobReadWriter` (promoted from the embedded reader). -/
def BlobReadWriter.Read (E : Engine) (w : BlobReadWriter) (v : List Byte) :
    (Int × Option GoError) × List Byte × BlobReadWriter :=
  let (res, v', r') := w.toBlobReader.Read E v
  (res, v', { w with toBlobReader := r' })

/-- Successive calls of `BlobReader.Read` on one reader, one per buffer in the
list: the returned pair of each call and the reader after the last. -/
def BlobReader.ReadAll (E : Engine) : BlobReader → List (List Byte) →
    List (Int × Option GoError) × BlobReader
  | r, [] => ([], r)
  | r, v :: more =>
    match r.Read E v with
    | (res, _, r') =>
      match BlobReader.ReadAll E r' more with
      | (outs, r'') => (res :: outs, r'')


/-! ## The statement primitive behind the driver adapter -/

/-- The values of `driver.Value`. -/
inductive Value where
  | null
  | int64 (i : Int)
  | float64 (bits : Nat)
  | bool (b : Bool)
  | bytes (b : List Byte)
  | string (s : String)
  | time (unixNano : Int)
  deriving DecidableEq, Repr

/-- What one step of the engine yields while a statement runs: a row, or a
runtime error status.  The end of the list is the completion of the run. -/
inductive StepEvent where
  | row (values : List Value)
  | fail (rv : Int)
  deriving DecidableEq, Repr

/-- Execution state of a statement (spec, data model). -/
inductive ExecState where
  | idle
  | stepping
  | exhausted
  deriving DecidableEq, Repr

/-- A prepared statement (`*Stmt`, stmt.go, not under src/).  `paramCount` is
`BindParameterCount()`, `accepts` tells which argument values the statement's
binder takes, `program` is what one run from idle yields, `inserted` and
`changed` are the row id inserted and the number of rows changed by a completed
run (when the statement is an INSERT, resp. a DELETE/INSERT/UPDATE).
`pending`, `current` and `state` are the cursor; `bindCalls` and `runs` record
the `BindByIndex` calls made and the runs completed. -/
structure Stmt where
  paramCount : Nat
  accepts : Value → Bool
  columnNames : List String
  program : List StepEvent
  inserted : Option Int
  changed : Option Int
  pending : List StepEvent
  current : List Value
  state : ExecState
  bindCalls : List (Int × Value)
  runs : Nat

/-- Modelled from the spec: `Stmt.error` (stmt.go, not under src/) turns an
engine status code into an `EngineError` value that carries the status code. -/
def Stmt.error (_s : Stmt) (rv : Int) : GoError := GoError.engine rv

/-- Modelled from the spec: `Stmt.BindByIndex` (stmt.go, not under src/) binds
one positional argument by its 1-based index; it fails when the index is not
one of the statement's parameters or the value's type mismatches what the
statement expects. -/
def Stmt.BindByIndex (s : Stmt) (index : Int) (value : Value) : Option GoError × Stmt :=
  let s' := { s with bindCalls := s.bindCalls ++ [(index, value)] }
  if index < 1 ∨ index > s.paramCount then (some (s.error SQLITE_RANGE), s')
  else if s.accepts value = false then (some (s.error SQLITE_MISMATCH), s')
  else (none, s')

/-- Modelled from the spec: `Stmt.Reset` (stmt.go, not under src/) puts the
statement back to idle, ready for a new run. -/
def Stmt.Reset (s : Stmt) : Option GoError × Stmt :=
  (none, { s with pending := s.program, current := [], state := ExecState.idle })

/-- Modelled from the spec: `Stmt.Next` (stmt.go, not under src/) advances the
statement by one step.  The cursor is forward-only and non-restartable: once
exhausted it stays exhausted until a reset.  A step that yields a row makes it
the current row; a step that meets an engine error reports it; the step that
finds no more rows completes the run, which is when the engine updates the
connection-wide counters. -/
def Stmt.Next (s : Stmt) (c : Conn) : (Bool × Option GoError) × Stmt × Conn :=
  match s.state with
  | ExecState.exhausted => ((false, none), s, c)
  | _ =>
    match s.pending with
    | StepEvent.row values :: rest =>
      ((true, none),
        { s with pending := rest, current := values, state := ExecState.stepping }, c)
    | StepEvent.fail rv :: rest =>
      ((false, some (s.error rv)), { s with pending := rest, state := ExecState.stepping }, c)
    | [] =>
      ((false, none),
        { s with current := [], state := ExecState.exhausted, runs := s.runs + 1 },
        { lastInsertRowid := s.inserted.getD c.lastInsertRowid,
          changes := s.changed.getD c.changes })

/-- Modelled from the spec: `Stmt.ScanValue` (stmt.go, not under src/) is the
native-typed value of column `i` of the current row. -/
def Stmt.ScanValue (s : Stmt) (i : Nat) : Value := s.current.getD i Value.null

/-- The loop of `Stmt.exec`: step until no row is produced. -/
def Stmt.execLoop : Nat → Stmt → Conn → Option GoError × Stmt × Conn
  | 0, s, c => (none, s, c)
  | fuel + 1, s, c =>
    match s.Next c with
    | ((_, some err), s', c') => (some err, s', c')
    | ((false, none), s', c') => (none, s', c')
    | ((true, none), s', c') => Stmt.execLoop fuel s' c'

/-- Modelled from the spec: `Stmt.exec` (stmt.go, not under src/) executes the
statement to completion, discarding any produced rows, and leaves it idle; it
fails if the engine reports a runtime execution error. -/
def Stmt.exec (s : Stmt) (c : Conn) : Option GoError × Stmt × Conn :=
  match Stmt.execLoop (s.pending.length + 1) s c with
  | (some err, s', c') => (some err, (s'.Reset).2, c')
  | (none, s', c') => (none, (s'.Reset).2, c')

/-! ## driver.go -/

/-- Adapter to `database/sql/driver`: a connection. -/
structure connImpl where
  c : Conn

/-- Adapter to `database/sql/driver`: a statement. -/
structure stmtImpl where
  s : Stmt

/-- Adapter to `database/sql/driver`: a rows cursor with its column-name cache. -/
structure rowsImpl where
  s : Stmt
  columnNames : Option (List String)

/-- `connImpl.LastInsertId`. -/
def connImpl.LastInsertId (c : connImpl) : Int × Option GoError :=
  (c.c.lastInsertRowid, none)

/-- `connImpl.RowsAffected`. -/
def connImpl.RowsAffected (c : connImpl) : Int × Option GoError :=
  (c.c.changes, none)

/-- `stmtImpl.NumInput`. -/
def stmtImpl.NumInput (s : stmtImpl) : Int := s.s.paramCount

/-- The loop of `stmtImpl.bind`, from position `i` of the argument list on. -/
def stmtImpl.bindFrom : Stmt → Nat → List Value → Option GoError × Stmt
  | s, _, [] => (none, s)
  | s, i, v :: rest =>
    match s.BindByIndex ((i : Int) + 1) v with
    | (some err, s') => (some err, s')
    | (none, s') => stmtImpl.bindFrom s' (i + 1) rest

/-- `stmtImpl.bind`. -/
def stmtImpl.bind (s : stmtImpl) (args : List Value) : Option GoError × stmtImpl :=
  let (err, s') := stmtImpl.bindFrom s.s 0 args
  (err, { s := s' })

/-- `stmtImpl.Exec`: the returned pair, where the `driver.Result` is the receiver
itself, the receiver afterwards and the connection afterwards. -/
def stmtImpl.Exec (s : stmtImpl) (args : List Value) (c : Conn) :
    (Option stmtImpl × Option GoError) × stmtImpl × Conn :=
  match s.bind args with
  | (some err, s1) => ((none, some err), s1, c)
  | (none, s1) =>
    match s1.s.exec c with
    | (some err, s2, c') => ((none, some err), { s := s2 }, c')
    | (none, s2, c') => ((some { s := s2 }, none), { s := s2 }, c')

/-- `stmtImpl.LastInsertId`: reads the connection the statement belongs to, in
the state it has when the method is called. -/
def stmtImpl.LastInsertId (_s : stmtImpl) (c : Conn) : Int × Option GoError :=
  (c.lastInsertRowid, none)

/-- `stmtImpl.RowsAffected`: reads the connection the statement belongs to, in
the state it has when the method is called. -/
def stmtImpl.RowsAffected (_s : stmtImpl) (c : Conn) : Int × Option GoError :=
  (c.changes, none)

/-- `stmtImpl.Query`. -/
def stmtImpl.Query (s : stmtImpl) (args : List Value) :
    (Option rowsImpl × Option GoError) × stmtImpl :=
  match s.bind args with
  | (some err, s1) => ((none, some err), s1)
  | (none, s1) => ((some { s := s1.s, columnNames := none }, none), s1)

/-- `rowsImpl.Columns`. -/
def rowsImpl.Columns (r : rowsImpl) : List String × rowsImpl :=
  match r.columnNames with
  | none => (r.s.columnNames, { r with columnNames := some r.s.columnNames })
  | some names => (names, r)

/-- `rowsImpl.Next`: the returned error, the destination slots afterwards, the
cursor afterwards and the connection afterwards. -/
def rowsImpl.Next (r : rowsImpl) (dest : List Value) (c : Conn) :
    Option GoError × List Value × rowsImpl × Conn :=
  match r.s.Next c with
  | ((_, some err), s', c') => (some err, dest, { r with s := s' }, c')
  | ((false, none), s', c') => (some GoError.EOF, dest, { r with s := s' }, c')
  | ((true, none), s', c') =>
    (none, (List.range dest.length).map (fun i => s'.ScanValue i), { r with s := s' }, c')

/-- `rowsImpl.Close`. -/
def rowsImpl.Close (r : rowsImpl) : Option GoError × rowsImpl :=
  let (err, s') := r.s.Reset
  (err, { r with s := s' })

/-- Successive calls of `rowsImpl.Next` on one cursor, one per destination in
the list: the error and destination slots of each call, and the cursor and
connection after the last. -/
def rowsImpl.NextAll : rowsImpl → List (List Value) → Conn →
    List (Option GoError × List Value) × rowsImpl × Conn
  | r, [], c => ([], r, c)
  | r, dest :: more, c =>
    match r.Next dest c with
    | (err, dest', r', c') =>
      match rowsImpl.NextAll r' more c' with
      | (outs, r'', c'') => ((err, dest') :: outs, r'', c'')

/-! ## The backup session (backup.go is not under src/; `TestBackup` drives it) -/

/-- A progress snapshot sent to the sink: pages remaining and total pages. -/
structure BackupStatus where
  Remaining : Nat
  PageCount : Nat
  deriving DecidableEq, Repr

/-- An in-progress page copy: pages remaining, total pages, and the engine
statuses that the forthcoming step attempts meet, one per attempt; past the end
of that list every attempt succeeds. -/
structure Backup where
  remaining : Nat
  total : Nat
  faults : List Int
  deriving DecidableEq, Repr

/-- Modelled from the spec: starting a backup (`NewBackup`, backup.go, not under
src/) of a source of `pages` pages. -/
def NewBackup (pages : Nat) (faults : List Int) : Backup :=
  { remaining := pages, total := pages, faults := faults }

/-- Modelled from the spec: the snapshot of a session (`Backup.Status`,
backup.go, not under src/). -/
def Backup.Status (b : Backup) : BackupStatus :=
  { Remaining := b.remaining, PageCount := b.total }

/-- The pages one successful step copies: up to `npage`, and everything that
remains when `npage` is zero or negative. -/
def Backup.copied (b : Backup) (npage : Int) : Nat :=
  if npage ≤ 0 then b.remaining else min npage.toNat b.remaining

/-- Modelled from the spec: one step attempt (`Backup.Step`, backup.go, not
under src/).  It returns the engine status; a successful step copies up to
`npage` pages. -/
def Backup.Step (b : Backup) (npage : Int) : Int × Backup :=
  match b.faults with
  | rv :: rest =>
    if rv ≠ SQLITE_OK then (rv, { b with faults := rest })
    else (SQLITE_OK, { b with remaining := b.remaining - b.copied npage, faults := rest })
  | [] => (SQLITE_OK, { b with remaining := b.remaining - b.copied npage })

/-- The single-step run used when pages-per-step is zero or negative: the step
is retried while the engine is busy or locked, a completed step is reported to
the sink, any other engine error is terminal. -/
def Backup.runOnce (npage : Int) : Nat → Backup → Option GoError × List BackupStatus
  | 0, _ => (none, [])
  | fuel + 1, b =>
    match b.Step npage with
    | (rv, b') =>
      if rv = SQLITE_BUSY ∨ rv = SQLITE_LOCKED then Backup.runOnce npage fuel b'
      else if rv ≠ SQLITE_OK then (some (GoError.engine rv), [])
      else (none, [b'.Status])

/-- The copy loop: it continues until the remaining pages reach zero or a
non-retryable engine error occurs; each completed step is reported to the sink;
a busy or locked engine is retried. -/
def Backup.runLoop (npage : Int) : Nat → Backup → Option GoError × List BackupStatus
  | 0, _ => (none, [])
  | fuel + 1, b =>
    if b.remaining = 0 then (none, [])
    else
      match b.Step npage with
      | (rv, b') =>
        if rv = SQLITE_BUSY ∨ rv = SQLITE_LOCKED then Backup.runLoop npage fuel b'
        else if rv ≠ SQLITE_OK then (some (GoError.engine rv), [])
        else
          match Backup.runLoop npage fuel b' with
          | (err, sent) => (err, b'.Status :: sent)

/-- Modelled from the spec: `Backup.Run(npage, sleep, sink)` (backup.go, not
under src/): the returned error and the snapshots sent to the sink, in order.
Zero or negative pages-per-step copies everything in one step and reports one
snapshot; otherwise each step copies up to `npage` pages and reports a
snapshot, until the remaining pages reach zero or a non-retryable engine error
occurs.  The number of iterations is bounded by the pages remaining plus the
scripted engine statuses, so the loop is given that much fuel. -/
def Backup.Run (b : Backup) (npage : Int) (_sleep : Int) :
    Option GoError × List BackupStatus :=
  if npage ≤ 0 then Backup.runOnce npage (b.faults.length + 1) b
  else Backup.runLoop npage (b.remaining + b.faults.length + 1) b


/-! ## Concrete data used to evaluate the definitions -/

/-- A connection with both counters at zero. -/
def exConn : Conn := { lastInsertRowid := 0, changes := 0 }

/-- A ten-byte blob opened for writing. -/
def exBlob : Sqlite3Blob := { data := [1, 2, 3, 4, 5, 6, 7, 8, 9, 10], writable := true }

/-- An engine whose table has the ten-byte blob in row 1 and a three-byte blob
in row 2, and whose `sqlite3_blob_close` is a no-op returning `SQLITE_OK` on a
null handle, as the engine documents. -/
def exEngine : Engine where
  blob_open := fun _ _ _ row flags =>
    if row = 1 then (SQLITE_OK, some { exBlob with writable := decide (flags ≠ 0) })
    else (SQLITE_ERROR, none)
  blob_close := fun _ => SQLITE_OK
  blob_reopen := fun bl row =>
    match bl with
    | none => (SQLITE_MISUSE, none)
    | some b =>
      if row = 1 then (SQLITE_OK, some { b with data := exBlob.data })
      else if row = 2 then (SQLITE_OK, some { b with data := [21, 22, 23] })
      else (SQLITE_ERROR, some b)
  blob_read := sqlite3_blob_read
  blob_write := sqlite3_blob_write

/-- A read-write adapter on the ten-byte blob. -/
def exWriter : BlobReadWriter :=
  { c := exConn, bl := some exBlob, ReadOffset := 5, WriteOffset := 7 }

/-- An engine that reports success without handing back a handle. -/
def exNullEngine : Engine := { exEngine with blob_open := fun _ _ _ _ _ => (SQLITE_OK, none) }

/-- An engine that reports an error and still hands back a handle. -/
def exFailEngine : Engine :=
  { exEngine with blob_open := fun _ _ _ _ _ => (SQLITE_ERROR, some exBlob) }

/-- The prepared statement `INSERT INTO t VALUES (?)` in a state where running
it inserts `count` rows, the last with row id `rowid`. -/
def exInsert (rowid count : Int) : Stmt where
  paramCount := 1
  accepts := fun _ => true
  columnNames := []
  program := []
  inserted := some rowid
  changed := some count
  pending := []
  current := []
  state := ExecState.idle
  bindCalls := []
  runs := 0

/-- A prepared query that yields the two rows `(7)` and `(8)`. -/
def exSelect : Stmt where
  paramCount := 0
  accepts := fun _ => true
  columnNames := ["a"]
  program := [StepEvent.row [Value.int64 7], StepEvent.row [Value.int64 8]]
  inserted := none
  changed := none
  pending := [StepEvent.row [Value.int64 7], StepEvent.row [Value.int64 8]]
  current := []
  state := ExecState.idle
  bindCalls := []
  runs := 0

/-- A prepared statement with three parameters whose binder takes every value
except a `time.Time`. -/
def exThreeParams : Stmt where
  paramCount := 3
  accepts := fun v => match v with
    | Value.time _ => false
    | _ => true
  columnNames := []
  program := []
  inserted := some 1
  changed := some 1
  pending := []
  current := []
  state := ExecState.idle
  bindCalls := []
  runs := 0

/-- The `BindByIndex` calls that binding `args` from position `i` on makes when
none of them fails: `(i+1, args[0])`, `(i+2, args[1])`, and so on. -/
def stmtImpl.bindCallsFrom : Nat → List Value → List (Int × Value)
  | _, [] => []
  | i, v :: rest => ((i : Int) + 1, v) :: stmtImpl.bindCallsFrom (i + 1) rest

/-- The `BindByIndex` calls that one call of `stmtImpl.bind` makes, in order:
what `bind` adds to the statement's record of bind calls. -/
def stmtImpl.bindLog (s : stmtImpl) (args : List Value) : List (Int × Value) :=
  (s.bind args).2.s.bindCalls.drop s.s.bindCalls.length

/-! ## Theorems -/

/-! ### Blob write/read round trip -/

theorem cint_of_range (x : Int) (h0 : -2147483648 ≤ x) (h1 : x < 2147483648) : cint x = x := by
  unfold cint; omega

theorem goInt_of_range (x : Int) (h : IsGoInt x) : goInt x = x := by
  unfold IsGoInt at h; unfold goInt; omega

theorem splice_window (data b : List Byte) (o : Nat)
    (h : o + b.length ≤ data.length) :
    ((data.take o ++ b ++ data.drop (o + b.length)).drop o).take b.length = b := by
  have h1 : (data.take o).length = o := by
    rw [List.length_take]; omega
  rw [List.append_assoc, List.drop_left' h1, List.take_left' rfl]

theorem sqlite3_blob_write_ok (blob : Sqlite3Blob) (z : List Byte) (n o : Int)
    (hw : blob.writable = true) (hn : 0 ≤ n) (ho : 0 ≤ o) (h : o + n ≤ blob.data.length) :
    sqlite3_blob_write (some blob) z n o
      = (SQLITE_OK, some { blob with
          data := blob.data.take o.toNat ++ z.take n.toNat
                    ++ blob.data.drop (o.toNat + n.toNat) }) := by
  unfold sqlite3_blob_write
  have : ¬ (n < 0 ∨ o < 0 ∨ o + n > blob.data.length) := by omega
  simp [this, hw]

theorem sqlite3_blob_read_ok (blob : Sqlite3Blob) (z : List Byte) (n o : Int)
    (hn : 0 ≤ n) (ho : 0 ≤ o) (h : o + n ≤ blob.data.length) :
    sqlite3_blob_read (some blob) z n o
      = (SQLITE_OK, (blob.data.drop o.toNat).take n.toNat ++ z.drop n.toNat) := by
  unfold sqlite3_blob_read
  have : ¬ (n < 0 ∨ o < 0 ∨ o + n > blob.data.length) := by omega
  simp [this]

/-- C1. Blob write/read round trip.  On a read-write adapter whose handle is
open for writing on a blob of size `S` (a C `int`, so `S < 2^31`), for every
offset `o ≥ 0` and buffer `b` with `o + len(b) ≤ S`: setting `WriteOffset = o`
and calling `Write(b)`, then setting `ReadOffset = o` and calling `Read` into a
buffer of length `len(b)`, both return `(len(b), nil)` and the read buffer
equals `b`. -/
theorem blob_write_then_read_roundtrip (E : Engine)
    (hR : E.blob_read = sqlite3_blob_read) (hW : E.blob_write = sqlite3_blob_write)
    (w : BlobReadWriter) (blob : Sqlite3Blob) (hbl : w.bl = some blob)
    (hwr : blob.writable = true) (hS : blob.data.length < 2147483648)
    (o : Int) (b buf : List Byte) (ho : 0 ≤ o) (hb : o + b.length ≤ blob.data.length)
    (hbuf : buf.length = b.length) :
    (BlobReadWriter.Write E { w with WriteOffset := o } b).1 = ((b.length : Int), none) ∧
    (BlobReadWriter.Read E
      { (BlobReadWriter.Write E { w with WriteOffset := o } b).2 with ReadOffset := o } buf).1
        = ((b.length : Int), none) ∧
    (BlobReadWriter.Read E
      { (BlobReadWriter.Write E { w with WriteOffset := o } b).2 with ReadOffset := o } buf).2.1
        = b := by
  have hlen : cint (b.length : Int) = b.length := cint_of_range _ (by omega) (by omega)
  have hoff : cint o = o := cint_of_range _ (by omega) (by omega)
  have hbuflen : cint (buf.length : Int) = b.length := by rw [hbuf]; exact hlen
  have hWrite : BlobReadWriter.Write E { w with WriteOffset := o } b
      = (((b.length : Int), none),
          { w with
            bl := some { blob with
              data := blob.data.take o.toNat ++ b.take (b.length : Int).toNat
                        ++ blob.data.drop (o.toNat + (b.length : Int).toNat) },
            WriteOffset := goAdd o b.length }) := by
    unfold BlobReadWriter.Write
    simp only [hW, hbl, hlen, hoff]
    rw [sqlite3_blob_write_ok blob b _ _ hwr (by omega) ho hb]
    simp
  rw [hWrite]
  unfold BlobReadWriter.Read BlobReader.Read
  simp only [hR, hbuflen, hoff]
  rw [sqlite3_blob_read_ok _ buf _ _ (by omega) ho (by simp; omega)]
  simp only [Int.toNat_ofNat, List.take_length]
  have hdrop : buf.drop b.length = [] := by
    rw [← hbuf]; exact List.drop_length buf
  have hwin := splice_window blob.data b o.toNat (by omega)
  rw [List.append_assoc] at hwin
  simp [hdrop, hwin, hbuf, SQLITE_OK]


/-- C1 at a concrete input: write two bytes at offset 2 of the ten-byte blob,
read two bytes back at offset 2. -/
theorem blob_write_then_read_roundtrip_witness :
    (BlobReadWriter.Write exEngine { exWriter with WriteOffset := 2 } [200, 201]).1
        = (2, none) ∧
    (BlobReadWriter.Read exEngine
      { (BlobReadWriter.Write exEngine { exWriter with WriteOffset := 2 } [200, 201]).2
          with ReadOffset := 2 } [0, 0]).1 = (2, none) ∧
    (BlobReadWriter.Read exEngine
      { (BlobReadWriter.Write exEngine { exWriter with WriteOffset := 2 } [200, 201]).2
          with ReadOffset := 2 } [0, 0]).2.1 = [200, 201] :=
  blob_write_then_read_roundtrip exEngine rfl rfl exWriter exBlob rfl rfl (by decide)
    2 [200, 201] [0, 0] (by decide) (by decide) rfl

/-! ### Out-of-bounds requests -/

theorem sqlite3_blob_read_out_of_bounds (blob : Sqlite3Blob) (z : List Byte) (n o : Int)
    (h : o + n > blob.data.length) :
    sqlite3_blob_read (some blob) z n o = (SQLITE_ERROR, z) := by
  unfold sqlite3_blob_read
  have : n < 0 ∨ o < 0 ∨ o + n > blob.data.length := by omega
  simp [this]

theorem sqlite3_blob_write_out_of_bounds (blob : Sqlite3Blob) (z : List Byte) (n o : Int)
    (h : o + n > blob.data.length) :
    sqlite3_blob_write (some blob) z n o = (SQLITE_ERROR, some blob) := by
  unfold sqlite3_blob_write
  have : n < 0 ∨ o < 0 ∨ o + n > blob.data.length := by omega
  simp [this]

/-- Within the range of the C `int` the engine's bounds check decides: a read
whose window exceeds the blob returns 0 and an error and leaves the reader,
and the buffer, as they were. -/
theorem Read_out_of_bounds_in_cint_range (E : Engine) (hR : E.blob_read = sqlite3_blob_read)
    (r : BlobReader) (blob : Sqlite3Blob) (hbl : r.bl = some blob) (v : List Byte)
    (ho : -2147483648 ≤ r.ReadOffset ∧ r.ReadOffset < 2147483648)
    (hv : v.length < 2147483648)
    (h : r.ReadOffset + v.length > blob.data.length) :
    r.Read E v = ((0, some (r.c.error SQLITE_ERROR)), v, r) := by
  have hlen : cint (v.length : Int) = v.length := cint_of_range _ (by omega) (by omega)
  have hoff : cint r.ReadOffset = r.ReadOffset := cint_of_range _ ho.1 ho.2
  unfold BlobReader.Read
  simp only [hR, hbl, hlen, hoff]
  rw [sqlite3_blob_read_out_of_bounds blob v _ _ h]
  simp [SQLITE_ERROR, SQLITE_OK]

/-- Within the range of the C `int` the engine's bounds check decides: a write
whose window exceeds the blob returns 0 and an error and leaves the adapter,
and the blob, as they were. -/
theorem Write_out_of_bounds_in_cint_range (E : Engine)
    (hW : E.blob_write = sqlite3_blob_write)
    (w : BlobReadWriter) (blob : Sqlite3Blob) (hbl : w.bl = some blob) (v : List Byte)
    (ho : -2147483648 ≤ w.WriteOffset ∧ w.WriteOffset < 2147483648)
    (hv : v.length < 2147483648)
    (h : w.WriteOffset + v.length > blob.data.length) :
    w.Write E v = ((0, some (w.c.error SQLITE_ERROR)), w) := by
  have hlen : cint (v.length : Int) = v.length := cint_of_range _ (by omega) (by omega)
  have hoff : cint w.WriteOffset = w.WriteOffset := cint_of_range _ ho.1 ho.2
  unfold BlobReadWriter.Write
  simp only [hW, hbl, hlen, hoff]
  rw [sqlite3_blob_write_out_of_bounds blob v _ _ h]
  simp [SQLITE_ERROR, SQLITE_OK, ← hbl]

/-- C2, the code at the failing input.  On the ten-byte blob, with the offset
field holding 4294967296, the window of a one-byte request lies outside the
blob, yet `Read` returns 1 and no error, delivers byte 0 of the blob and
advances `ReadOffset`; `Write` returns 1 and no error, overwrites byte 0 of the
blob and advances `WriteOffset`. -/
theorem Read_Write_offset_beyond_cint_accepted :
    (4294967296 : Int) + ([0] : List Byte).length > exBlob.data.length ∧
    BlobReader.Read exEngine { c := exConn, bl := some exBlob, ReadOffset := 4294967296 } [0]
      = ((1, none), [1],
          { c := exConn, bl := some exBlob, ReadOffset := 4294967297 }) ∧
    BlobReadWriter.Write exEngine
        { c := exConn, bl := some exBlob, ReadOffset := 0, WriteOffset := 4294967296 } [99]
      = ((1, none),
          { c := exConn,
            bl := some { data := [99, 2, 3, 4, 5, 6, 7, 8, 9, 10], writable := true },
            ReadOffset := 0, WriteOffset := 4294967297 }) := by
  decide


/-! ### Read-offset bookkeeping -/

theorem Read_of_status_ok (E : Engine) (r : BlobReader) (v : List Byte)
    (hok : (E.blob_read r.bl v (cint v.length) (cint r.ReadOffset)).1 = SQLITE_OK) :
    (r.Read E v).1 = ((v.length : Int), none) ∧
    (r.Read E v).2.2 = { r with ReadOffset := goAdd r.ReadOffset v.length } := by
  unfold BlobReader.Read
  simp [hok]

theorem Read_of_status_not_ok (E : Engine) (r : BlobReader) (v : List Byte)
    (hno : (E.blob_read r.bl v (cint v.length) (cint r.ReadOffset)).1 ≠ SQLITE_OK) :
    (r.Read E v).1 = (0, some (r.c.error
        (E.blob_read r.bl v (cint v.length) (cint r.ReadOffset)).1)) ∧
    (r.Read E v).2.2 = r := by
  unfold BlobReader.Read
  simp [hno]

theorem Read_error_none_iff (E : Engine) (r : BlobReader) (v : List Byte) :
    (r.Read E v).1.2 = none ↔
      (E.blob_read r.bl v (cint v.length) (cint r.ReadOffset)).1 = SQLITE_OK := by
  by_cases h : (E.blob_read r.bl v (cint v.length) (cint r.ReadOffset)).1 = SQLITE_OK
  · simp [(Read_of_status_ok E r v h).1, h]
  · simp [(Read_of_status_not_ok E r v h).1, h]

theorem isGoInt_goInt (x : Int) : IsGoInt (goInt x) := by
  unfold IsGoInt goInt; omega

theorem goInt_add_goInt_left (a b : Int) : goInt (goInt a + b) = goInt (a + b) := by
  unfold goInt; omega

theorem ReadAll_offset (E : Engine) (vs : List (List Byte)) :
    ∀ r : BlobReader, IsGoInt r.ReadOffset →
      (∀ res ∈ (BlobReader.ReadAll E r vs).1, res.2 = none) →
      (BlobReader.ReadAll E r vs).2.ReadOffset
        = goInt (r.ReadOffset + ((vs.map List.length).sum : Nat)) := by
  induction vs with
  | nil =>
    intro r hgo _
    simpa [BlobReader.ReadAll] using (goInt_of_range _ hgo).symm
  | cons v more ih =>
    intro r _ hall
    have hsplit : BlobReader.ReadAll E r (v :: more)
        = ((r.Read E v).1 :: (BlobReader.ReadAll E (r.Read E v).2.2 more).1,
            (BlobReader.ReadAll E (r.Read E v).2.2 more).2) := by
      simp [BlobReader.ReadAll]
    rw [hsplit] at hall ⊢
    have h1 : (r.Read E v).1.2 = none := hall _ (List.mem_cons_self _ _)
    have hok := (Read_error_none_iff E r v).1 h1
    have hoff : (r.Read E v).2.2.ReadOffset = goAdd r.ReadOffset v.length := by
      rw [(Read_of_status_ok E r v hok).2]
    have hrest : ∀ res ∈ (BlobReader.ReadAll E (r.Read E v).2.2 more).1, res.2 = none :=
      fun res hres => hall res (List.mem_cons_of_mem _ hres)
    have hgo' : IsGoInt (r.Read E v).2.2.ReadOffset := by
      rw [hoff]; exact isGoInt_goInt _
    have hfin := ih (r.Read E v).2.2 hgo' hrest
    show (BlobReader.ReadAll E (r.Read E v).2.2 more).2.ReadOffset = _
    rw [hfin, hoff]
    unfold goAdd
    rw [goInt_add_goInt_left]
    congr 1
    simp only [List.map_cons, List.sum_cons]
    push_cast
    ring

/-- C3. When the engine read call reports success, `Read(v)` returns
`(len(v), nil)` and the new `ReadOffset` is `o + len(v)` in Go `int` arithmetic,
which is the exact sum whenever that fits the `int`; a zero-length read leaves
the offset unchanged; and successive successful reads of lengths `k1..kn` leave
`ReadOffset` at `o + k1 + ... + kn`, again the exact sum whenever it fits. -/
theorem Read_success_advances_by_requested_length (E : Engine) (r : BlobReader)
    (v : List Byte) (hgo : IsGoInt r.ReadOffset)
    (hok : (E.blob_read r.bl v (cint v.length) (cint r.ReadOffset)).1 = SQLITE_OK) :
    (r.Read E v).1 = ((v.length : Int), none) ∧
    (r.Read E v).2.2.ReadOffset = goAdd r.ReadOffset v.length ∧
    (IsGoInt (r.ReadOffset + v.length) →
      (r.Read E v).2.2.ReadOffset = r.ReadOffset + v.length) ∧
    (v.length = 0 → (r.Read E v).2.2.ReadOffset = r.ReadOffset) ∧
    (∀ vs : List (List Byte), (∀ res ∈ (BlobReader.ReadAll E r vs).1, res.2 = none) →
      (BlobReader.ReadAll E r vs).2.ReadOffset
          = goInt (r.ReadOffset + ((vs.map List.length).sum : Nat)) ∧
      (IsGoInt (r.ReadOffset + ((vs.map List.length).sum : Nat)) →
        (BlobReader.ReadAll E r vs).2.ReadOffset
          = r.ReadOffset + ((vs.map List.length).sum : Nat))) := by
  obtain ⟨hres, hr'⟩ := Read_of_status_ok E r v hok
  have hoff : (r.Read E v).2.2.ReadOffset = goAdd r.ReadOffset v.length := by rw [hr']
  refine ⟨hres, hoff, ?_, ?_, ?_⟩
  · intro hfit
    rw [hoff]; exact goInt_of_range _ hfit
  · intro hzero
    rw [hoff, hzero]
    simpa [goAdd] using goInt_of_range _ hgo
  · intro vs hall
    have hwrap := ReadAll_offset E vs r hgo hall
    exact ⟨hwrap, fun hfit => by rw [hwrap]; exact goInt_of_range _ hfit⟩


/-- C3 at a concrete input: a two-byte read at offset 3 of the ten-byte blob. -/
theorem Read_success_advances_by_requested_length_witness :
    (BlobReader.Read exEngine { c := exConn, bl := some exBlob, ReadOffset := 3 } [0, 0]).1
        = (2, none) ∧
    (BlobReader.Read exEngine
        { c := exConn, bl := some exBlob, ReadOffset := 3 } [0, 0]).2.2.ReadOffset = 3 + 2 :=
  have h := Read_success_advances_by_requested_length exEngine
    { c := exConn, bl := some exBlob, ReadOffset := 3 } [0, 0] (by decide) (by decide)
  ⟨h.1, h.2.2.1 (by decide)⟩

/-! ### Reopen -/

/-- C4. `Reopen` on a read-write adapter resets only the read cursor.  When the
engine reopen succeeds, `Reopen` returns nil, `ReadOffset` is 0 and
`WriteOffset` is what it was, so that the next `Read` asks the engine for the
window starting at byte 0 and, on the modelled engine, delivers the first bytes
of the new row.  When the engine reopen fails, `Reopen` returns the engine
error and both offsets keep their values. -/
theorem Reopen_resets_only_read_offset (E : Engine) (w : BlobReadWriter) (rowid : Int) :
    ((E.blob_reopen w.bl rowid).1 = SQLITE_OK →
      (w.Reopen E rowid).1 = none ∧
      (w.Reopen E rowid).2.ReadOffset = 0 ∧
      (w.Reopen E rowid).2.WriteOffset = w.WriteOffset ∧
      (w.Reopen E rowid).2.bl = (E.blob_reopen w.bl rowid).2 ∧
      (∀ v : List Byte, ((w.Reopen E rowid).2.Read E v).2.1
          = (E.blob_read (E.blob_reopen w.bl rowid).2 v (cint v.length) 0).2) ∧
      (∀ (nb : Sqlite3Blob) (v : List Byte), E.blob_read = sqlite3_blob_read →
          (E.blob_reopen w.bl rowid).2 = some nb → v.length ≤ nb.data.length →
          v.length < 2147483648 →
          ((w.Reopen E rowid).2.Read E v).1 = ((v.length : Int), none) ∧
          ((w.Reopen E rowid).2.Read E v).2.1 = nb.data.take v.length)) ∧
    ((E.blob_reopen w.bl rowid).1 ≠ SQLITE_OK →
      (w.Reopen E rowid).1 = some (w.c.error (E.blob_reopen w.bl rowid).1) ∧
      (w.Reopen E rowid).2.ReadOffset = w.ReadOffset ∧
      (w.Reopen E rowid).2.WriteOffset = w.WriteOffset) := by
  have hc0 : cint 0 = 0 := by decide
  constructor
  · intro hok
    have hre : w.Reopen E rowid
        = (none, { w with bl := (E.blob_reopen w.bl rowid).2, ReadOffset := 0 }) := by
      unfold BlobReadWriter.Reopen BlobReader.Reopen
      simp [hok]
    rw [hre]
    refine ⟨rfl, rfl, rfl, rfl, ?_, ?_⟩
    · intro v
      unfold BlobReadWriter.Read BlobReader.Read
      simp only [hc0]
      split <;> rfl
    · intro nb v hR hnb hv hv31
      have hlen : cint (v.length : Int) = v.length := cint_of_range _ (by omega) (by omega)
      unfold BlobReadWriter.Read BlobReader.Read
      simp only [hR, hnb, hc0, hlen]
      rw [sqlite3_blob_read_ok nb v _ _ (by omega) (le_refl _) (by omega)]
      simp [SQLITE_OK]
  · intro hno
    have hre : w.Reopen E rowid
        = (some (w.c.error (E.blob_reopen w.bl rowid).1),
            { w with bl := (E.blob_reopen w.bl rowid).2 }) := by
      unfold BlobReadWriter.Reopen BlobReader.Reopen
      simp [hno]
    rw [hre]
    exact ⟨rfl, rfl, rfl⟩

/-- C4 at a concrete input: the adapter with `ReadOffset` 5 and `WriteOffset` 7
is moved to row 2 (success) and to row 9 (engine error). -/
theorem Reopen_resets_only_read_offset_witness :
    ((exWriter.Reopen exEngine 2).1 = none ∧
      (exWriter.Reopen exEngine 2).2.ReadOffset = 0 ∧
      (exWriter.Reopen exEngine 2).2.WriteOffset = 7 ∧
      ((exWriter.Reopen exEngine 2).2.Read exEngine [0, 0]).2.1 = [21, 22]) ∧
    ((exWriter.Reopen exEngine 9).1 = some (GoError.engine SQLITE_ERROR) ∧
      (exWriter.Reopen exEngine 9).2.ReadOffset = 5 ∧
      (exWriter.Reopen exEngine 9).2.WriteOffset = 7) :=
  have h := Reopen_resets_only_read_offset exEngine exWriter
  have h2 := (h 2).1 (by decide)
  have h9 := (h 9).2 (by decide)
  ⟨⟨h2.1, h2.2.1, h2.2.2.1,
      ((h2.2.2.2.2.2 { exBlob with data := [21, 22, 23] } [0, 0] rfl (by decide) (by decide)
        (by decide)).2)⟩,
    h9⟩

/-! ### Close -/

/-- `Close` on a nil reader returns a descriptive error and calls nothing. -/
theorem Close_nil_reader (E : Engine) :
    (BlobReader.Close E none).err = some (GoError.new "nil sqlite blob reader") ∧
    (BlobReader.Close E none).calls = [] := by
  simp [BlobReader.Close]

/-- C5, the code on a reader that was already closed.  After a `Close` that
succeeded the handle field is null; a second `Close` hands that null handle to
the engine's close routine, and returns nil exactly when the engine answers
`SQLITE_OK` to it. -/
theorem Close_after_Close_passes_null_handle (E : Engine) (r : BlobReader)
    (h1 : E.blob_close r.bl = SQLITE_OK) :
    (BlobReader.Close E (some r)).err = none ∧
    (BlobReader.Close E (some r)).reader = some { r with bl := none } ∧
    (BlobReader.Close E (BlobReader.Close E (some r)).reader).calls
      = [EngineCall.blob_close none] ∧
    ((BlobReader.Close E (BlobReader.Close E (some r)).reader).err = none ↔
      E.blob_close none = SQLITE_OK) := by
  have hfirst : BlobReader.Close E (some r)
      = { err := none, reader := some { r with bl := none },
          calls := [EngineCall.blob_close r.bl] } := by
    simp [BlobReader.Close, h1]
  rw [hfirst]
  refine ⟨rfl, rfl, ?_, ?_⟩
  · by_cases h : E.blob_close none = SQLITE_OK <;> simp [BlobReader.Close, h]
  · by_cases h : E.blob_close none = SQLITE_OK <;> simp [BlobReader.Close, h]

/-- C5 at a concrete input: on the example engine, whose close routine is a
no-op on a null handle, the second `Close` returns nil after calling the engine
with the null handle. -/
theorem Close_after_Close_passes_null_handle_witness :
    (BlobReader.Close exEngine
        (BlobReader.Close exEngine (some exWriter.toBlobReader)).reader).calls
      = [EngineCall.blob_close none] ∧
    (BlobReader.Close exEngine
        (BlobReader.Close exEngine (some exWriter.toBlobReader)).reader).err = none :=
  have h := Close_after_Close_passes_null_handle exEngine exWriter.toBlobReader rfl
  ⟨h.2.2.1, h.2.2.2.2 rfl⟩


/-! ### Opening a blob -/

theorem blob_open_cases (E : Engine) (c : Conn) (db table column : String) (row : Int)
    (write : Bool) :
    (c.blob_open E db table column row write).1 =
      if (E.blob_open db table column row (btocint write)).1 ≠ SQLITE_OK then
        (none, some (c.error (E.blob_open db table column row (btocint write)).1))
      else
        match (E.blob_open db table column row (btocint write)).2 with
        | none => (none, some (GoError.new "sqlite succeeded without returning a blob"))
        | some h => (some h, none) := by
  unfold Conn.blob_open
  rcases hE : E.blob_open db table column row (btocint write) with ⟨rv, bl⟩
  by_cases hrv : rv = SQLITE_OK <;> cases bl <;> simp [hrv]

/-- C9. `blob_open` returns a handle and no error exactly when the engine
status is OK and the engine's handle is non-null, and then it is that handle.
With status OK and a null handle it returns no handle and an error built by
`errors.New`, which no `Conn.error(rv)` equals.  With a status other than OK it
returns no handle and `c.error(rv)`, having closed the engine's handle when that
was non-null (and only then).  `NewBlobReader` and `NewBlobReadWriter` return a
nil adapter with the error whenever `blob_open` fails, and otherwise an adapter
on the handle with `ReadOffset` (and `WriteOffset`) 0. -/
theorem blob_open_handle_iff_engine_ok_and_non_null (E : Engine) (c : Conn)
    (db table column : String) (row : Int) (write : Bool) :
    ((∃ h, (c.blob_open E db table column row write).1 = (some h, none)) ↔
      ((E.blob_open db table column row (btocint write)).1 = SQLITE_OK ∧
        (E.blob_open db table column row (btocint write)).2 ≠ none)) ∧
    (∀ h, (c.blob_open E db table column row write).1 = (some h, none) →
      (E.blob_open db table column row (btocint write)).2 = some h) ∧
    ((E.blob_open db table column row (btocint write)).1 = SQLITE_OK →
      (E.blob_open db table column row (btocint write)).2 = none →
      (c.blob_open E db table column row write).1
        = (none, some (GoError.new "sqlite succeeded without returning a blob")) ∧
      (∀ (c' : Conn) (rv : Int),
        (c.blob_open E db table column row write).1.2 ≠ some (c'.error rv)) ∧
      (c.blob_open E db table column row write).2
        = [EngineCall.blob_open db table column row (btocint write)]) ∧
    ((E.blob_open db table column row (btocint write)).1 ≠ SQLITE_OK →
      (c.blob_open E db table column row write).1
        = (none, some (c.error (E.blob_open db table column row (btocint write)).1)) ∧
      (∀ h, (E.blob_open db table column row (btocint write)).2 = some h →
        (c.blob_open E db table column row write).2
          = [EngineCall.blob_open db table column row (btocint write),
             EngineCall.blob_close (some h)]) ∧
      ((E.blob_open db table column row (btocint write)).2 = none →
        (c.blob_open E db table column row write).2
          = [EngineCall.blob_open db table column row (btocint write)])) ∧
    (∀ err, (c.blob_open E db table column row false).1.2 = some err →
      c.NewBlobReader E db table column row = (none, some err)) ∧
    ((c.blob_open E db table column row false).1.2 = none →
      c.NewBlobReader E db table column row
        = (some { c := c, bl := (c.blob_open E db table column row false).1.1,
                  ReadOffset := 0 }, none)) ∧
    (∀ err, (c.blob_open E db table column row true).1.2 = some err →
      c.NewBlobReadWriter E db table column row = (none, some err)) ∧
    ((c.blob_open E db table column row true).1.2 = none →
      c.NewBlobReadWriter E db table column row
        = (some { c := c, bl := (c.blob_open E db table column row true).1.1,
                  ReadOffset := 0, WriteOffset := 0 }, none)) := by
  refine ⟨?_, ?_, ?_, ?_, ?_, ?_, ?_, ?_⟩
  · rw [blob_open_cases]
    rcases hE : E.blob_open db table column row (btocint write) with ⟨rv, bl⟩
    by_cases hrv : rv = SQLITE_OK <;> cases bl <;> simp [hrv]
  · intro h
    rw [blob_open_cases]
    rcases hE : E.blob_open db table column row (btocint write) with ⟨rv, bl⟩
    by_cases hrv : rv = SQLITE_OK <;> cases bl <;> simp [hrv]
  · intro hok hnull
    unfold Conn.blob_open
    rcases hE : E.blob_open db table column row (btocint write) with ⟨rv, bl⟩
    rw [hE] at hok hnull
    simp only at hok hnull
    subst hnull
    simp [hok, Conn.error]
  · intro hno
    unfold Conn.blob_open
    rcases hE : E.blob_open db table column row (btocint write) with ⟨rv, bl⟩
    rw [hE] at hno
    simp only at hno
    cases bl <;> simp [hno]
  · intro err herr
    unfold Conn.NewBlobReader
    rcases hB : (c.blob_open E db table column row false).1 with ⟨bl, e⟩
    rw [hB] at herr
    simp only at herr
    subst herr
    rfl
  · intro hnone
    unfold Conn.NewBlobReader
    rcases hB : (c.blob_open E db table column row false).1 with ⟨bl, e⟩
    rw [hB] at hnone
    simp only at hnone
    subst hnone
    rfl
  · intro err herr
    unfold Conn.NewBlobReadWriter
    rcases hB : (c.blob_open E db table column row true).1 with ⟨bl, e⟩
    rw [hB] at herr
    simp only at herr
    subst herr
    rfl
  · intro hnone
    unfold Conn.NewBlobReadWriter
    rcases hB : (c.blob_open E db table column row true).1 with ⟨bl, e⟩
    rw [hB] at hnone
    simp only at hnone
    subst hnone
    rfl


/-- C9 at concrete inputs: the three engine answers (status OK with a handle,
status OK with a null handle, an error status with a handle). -/
theorem blob_open_handle_iff_engine_ok_and_non_null_witness :
    (exConn.blob_open exEngine "main" "t" "b" 1 true).1 = (some exBlob, none) ∧
    (exConn.NewBlobReadWriter exEngine "main" "t" "b" 1).1 = some
      { c := exConn, bl := some exBlob, ReadOffset := 0, WriteOffset := 0 } ∧
    (exConn.blob_open exNullEngine "main" "t" "b" 1 true).1
      = (none, some (GoError.new "sqlite succeeded without returning a blob")) ∧
    exConn.NewBlobReader exNullEngine "main" "t" "b" 1
      = (none, some (GoError.new "sqlite succeeded without returning a blob")) ∧
    exConn.blob_open exFailEngine "main" "t" "b" 1 false
      = ((none, some (GoError.engine SQLITE_ERROR)),
          [EngineCall.blob_open "main" "t" "b" 1 0, EngineCall.blob_close (some exBlob)]) :=
  have h := blob_open_handle_iff_engine_ok_and_non_null
  ⟨by decide, by decide, ((h exNullEngine exConn "main" "t" "b" 1 true).2.2.1 rfl rfl).1,
    by decide, by decide⟩

/-! ### The driver adapter: insert id and rows affected -/

/-- C6, the code at the failing input.  On one connection the prepared INSERT
`first` is executed and inserts row id 1 (one row changed); then another
prepared statement is executed and inserts three rows, the last with row id 4.
`LastInsertId()` and `RowsAffected()` on the `Result` of the first `Exec` are
`1` and `1` when asked right after that `Exec`, and `4` and `3` when asked
after the second statement ran. -/
theorem LastInsertId_follows_connection_not_statement :
    ((stmtImpl.Exec { s := exInsert 1 1 } [Value.string "a"] exConn).1.1.map
        (fun res => (res.LastInsertId
            (stmtImpl.Exec { s := exInsert 1 1 } [Value.string "a"] exConn).2.2,
          res.RowsAffected
            (stmtImpl.Exec { s := exInsert 1 1 } [Value.string "a"] exConn).2.2)))
      = some ((1, none), (1, none)) ∧
    ((stmtImpl.Exec { s := exInsert 1 1 } [Value.string "a"] exConn).1.1.map
        (fun res => (res.LastInsertId
            (stmtImpl.Exec { s := exInsert 4 3 } [Value.string "b"]
              (stmtImpl.Exec { s := exInsert 1 1 } [Value.string "a"] exConn).2.2).2.2,
          res.RowsAffected
            (stmtImpl.Exec { s := exInsert 4 3 } [Value.string "b"]
              (stmtImpl.Exec { s := exInsert 1 1 } [Value.string "a"] exConn).2.2).2.2)))
      = some ((4, none), (3, none)) := by
  decide


/-! ### The driver adapter: argument count -/

theorem BindByIndex_frame (s : Stmt) (index : Int) (v : Value) :
    (s.BindByIndex index v).2 = { s with bindCalls := s.bindCalls ++ [(index, v)] } := by
  unfold Stmt.BindByIndex
  split_ifs <;> rfl

theorem BindByIndex_out_of_range (s : Stmt) (index : Int) (v : Value)
    (h : index > s.paramCount) : (s.BindByIndex index v).1 = some (s.error SQLITE_RANGE) := by
  unfold Stmt.BindByIndex
  have : index < 1 ∨ index > s.paramCount := Or.inr h
  simp [this]

theorem BindByIndex_accepted (s : Stmt) (index : Int) (v : Value)
    (h1 : 1 ≤ index) (h2 : index ≤ s.paramCount) (hv : s.accepts v = true) :
    (s.BindByIndex index v).1 = none := by
  unfold Stmt.BindByIndex
  have : ¬ (index < 1 ∨ index > s.paramCount) := by omega
  simp [this, hv]

/-- The bind loop touches nothing but the record of bind calls. -/
theorem bindFrom_frame (args : List Value) :
    ∀ (s : Stmt) (i : Nat),
      (stmtImpl.bindFrom s i args).2
        = { s with bindCalls := (stmtImpl.bindFrom s i args).2.bindCalls } := by
  induction args with
  | nil => intro s i; rfl
  | cons v rest ih =>
    intro s i
    unfold stmtImpl.bindFrom
    rcases hB : s.BindByIndex ((i : Int) + 1) v with ⟨e, s'⟩
    have hs' : s' = { s with bindCalls := s.bindCalls ++ [((i : Int) + 1, v)] } := by
      have := BindByIndex_frame s ((i : Int) + 1) v
      rw [hB] at this
      exact this
    cases e with
    | some err => simp only; rw [hs']
    | none =>
      simp only
      rw [ih s' (i + 1)]
      rw [hs']

/-- With more arguments left than parameters left, the bind loop fails. -/
theorem bindFrom_surplus (args : List Value) :
    ∀ (s : Stmt) (i : Nat), args ≠ [] → i + args.length > s.paramCount →
      ∃ err, (stmtImpl.bindFrom s i args).1 = some err := by
  induction args with
  | nil => intro s i h; exact absurd rfl h
  | cons v rest ih =>
    intro s i _ hlen
    unfold stmtImpl.bindFrom
    rcases hB : s.BindByIndex ((i : Int) + 1) v with ⟨e, s'⟩
    have hs' : s' = { s with bindCalls := s.bindCalls ++ [((i : Int) + 1, v)] } := by
      have := BindByIndex_frame s ((i : Int) + 1) v
      rw [hB] at this
      exact this
    cases e with
    | some err => exact ⟨err, rfl⟩
    | none =>
      simp only
      have hin : i + 1 ≤ s.paramCount := by
        by_contra hcon
        have := BindByIndex_out_of_range s ((i : Int) + 1) v (by omega)
        rw [hB] at this
        simp at this
      have hrest : rest ≠ [] := by
        intro hnil
        subst hnil
        simp at hlen
        omega
      have hpc : s'.paramCount = s.paramCount := by rw [hs']
      exact ih s' (i + 1) hrest (by rw [hpc]; simp at hlen; omega)

/-- With no more arguments than parameters left and every value accepted, the
bind loop succeeds. -/
theorem bindFrom_within (args : List Value) :
    ∀ (s : Stmt) (i : Nat), i + args.length ≤ s.paramCount →
      (∀ v ∈ args, s.accepts v = true) → (stmtImpl.bindFrom s i args).1 = none := by
  induction args with
  | nil => intro s i _ _; rfl
  | cons v rest ih =>
    intro s i hlen hacc
    unfold stmtImpl.bindFrom
    rcases hB : s.BindByIndex ((i : Int) + 1) v with ⟨e, s'⟩
    have hs' : s' = { s with bindCalls := s.bindCalls ++ [((i : Int) + 1, v)] } := by
      have := BindByIndex_frame s ((i : Int) + 1) v
      rw [hB] at this
      exact this
    have he : e = none := by
      have := BindByIndex_accepted s ((i : Int) + 1) v (by omega)
        (by simp at hlen; omega) (hacc v (List.mem_cons_self _ _))
      rw [hB] at this
      exact this
    subst he
    simp only
    have hpc : s'.paramCount = s.paramCount := by rw [hs']
    have hac : s'.accepts = s.accepts := by rw [hs']
    refine ih s' (i + 1) (by rw [hpc]; simp at hlen; omega) ?_
    intro w hw
    rw [hac]
    exact hacc w (List.mem_cons_of_mem _ hw)

/-- C7 as stated fails: the prepared `INSERT INTO t VALUES (?)` expects one
parameter; `Exec` with no argument returns a `Result` and no error, and the
statement has been run (the row is inserted). -/
theorem Exec_with_missing_argument_runs :
    stmtImpl.NumInput { s := exInsert 1 1 } = 1 ∧
    ([] : List Value).length ≠ 1 ∧
    (stmtImpl.Exec { s := exInsert 1 1 } [] exConn).1.2 = none ∧
    (stmtImpl.Exec { s := exInsert 1 1 } [] exConn).1.1.isSome = true ∧
    (stmtImpl.Exec { s := exInsert 1 1 } [] exConn).2.1.s.runs = 1 ∧
    (stmtImpl.Exec { s := exInsert 1 1 } [] exConn).2.2.lastInsertRowid = 1 := by
  decide

/-- C7 amended.  `Exec` rejects surplus arguments and does not check for missing
ones.  With more arguments than the statement has parameters, `Exec` returns an
error and no `Result`, and the statement is not run: its run count, its cursor
and the connection are as before.  With no more arguments than parameters, all
of them accepted by the binder, every bind succeeds and `Exec` returns what
running the statement returns. -/
theorem Exec_rejects_surplus_arguments_only (s : stmtImpl) (args : List Value) (c : Conn) :
    ((args.length : Int) > s.NumInput →
      (∃ err, (s.Exec args c).1 = (none, some err)) ∧
      (s.Exec args c).2.1.s.runs = s.s.runs ∧
      (s.Exec args c).2.1.s.pending = s.s.pending ∧
      (s.Exec args c).2.1.s.state = s.s.state ∧
      (s.Exec args c).2.2 = c) ∧
    ((args.length : Int) ≤ s.NumInput → (∀ v ∈ args, s.s.accepts v = true) →
      (s.bind args).1 = none ∧
      (s.Exec args c).1.2 = ((s.bind args).2.s.exec c).1 ∧
      ((s.Exec args c).1.1.isSome = true ↔ ((s.bind args).2.s.exec c).1 = none) ∧
      (s.Exec args c).2.2 = ((s.bind args).2.s.exec c).2.2) := by
  constructor
  · intro hlen
    have hne : args ≠ [] := by
      intro h; subst h
      simp [stmtImpl.NumInput] at hlen
      omega
    obtain ⟨err, herr⟩ := bindFrom_surplus args s.s 0 hne
      (by simp [stmtImpl.NumInput] at hlen; omega)
    have hframe := bindFrom_frame args s.s 0
    have hbind : s.bind args = (some err, { s := (stmtImpl.bindFrom s.s 0 args).2 }) := by
      unfold stmtImpl.bind
      rcases hB : stmtImpl.bindFrom s.s 0 args with ⟨e, s'⟩
      rw [hB] at herr
      simp only at herr
      subst herr
      rfl
    have hexec : s.Exec args c
        = ((none, some err), { s := (stmtImpl.bindFrom s.s 0 args).2 }, c) := by
      unfold stmtImpl.Exec
      rw [hbind]
    rw [hexec]
    refine ⟨⟨err, rfl⟩, ?_, ?_, ?_, rfl⟩
    · show (stmtImpl.bindFrom s.s 0 args).2.runs = _
      rw [hframe]
    · show (stmtImpl.bindFrom s.s 0 args).2.pending = _
      rw [hframe]
    · show (stmtImpl.bindFrom s.s 0 args).2.state = _
      rw [hframe]
  · intro hlen hacc
    have hnone := bindFrom_within args s.s 0
      (by simp [stmtImpl.NumInput] at hlen; omega) hacc
    have hbind : s.bind args = (none, { s := (stmtImpl.bindFrom s.s 0 args).2 }) := by
      unfold stmtImpl.bind
      rcases hB : stmtImpl.bindFrom s.s 0 args with ⟨e, s'⟩
      rw [hB] at hnone
      simp only at hnone
      subst hnone
      rfl
    refine ⟨by rw [hbind], ?_, ?_, ?_⟩
    all_goals
      unfold stmtImpl.Exec
      rw [hbind]
      simp only
      rcases hX : (stmtImpl.bindFrom s.s 0 args).2.exec c with ⟨e, s2, c2⟩
      cases e <;> simp

/-- C7 amended, at concrete inputs: two arguments for the one-parameter INSERT
are rejected, one argument is bound and the statement runs. -/
theorem Exec_rejects_surplus_arguments_only_witness :
    ((stmtImpl.Exec { s := exInsert 1 1 } [Value.int64 5, Value.int64 6] exConn).1.2
        = some (GoError.engine SQLITE_RANGE) ∧
      (stmtImpl.Exec { s := exInsert 1 1 } [Value.int64 5, Value.int64 6] exConn).2.1.s.runs
        = 0 ∧
      (stmtImpl.Exec { s := exInsert 1 1 } [Value.int64 5, Value.int64 6] exConn).2.2
        = exConn) ∧
    (stmtImpl.Exec { s := exInsert 1 1 } [Value.int64 5] exConn).1.1.isSome = true :=
  have h := Exec_rejects_surplus_arguments_only { s := exInsert 1 1 }
  have h2 := (h [Value.int64 5, Value.int64 6] exConn).1 (by decide)
  have h1 := (h [Value.int64 5] exConn).2 (by decide) (by decide)
  ⟨⟨by decide, h2.2.1, h2.2.2.2.2⟩, h1.2.2.1.2 (by decide)⟩


/-! ### The rows cursor -/

theorem Stmt_Next_error_ne_EOF (s : Stmt) (c : Conn) : (s.Next c).1.2 ≠ some GoError.EOF := by
  unfold Stmt.Next
  split
  · simp
  · split <;> simp [Stmt.error]

/-- `rowsImpl.Next` as a function of what the statement step reports. -/
theorem rowsImpl_Next_cases (r : rowsImpl) (dest : List Value) (c : Conn) :
    (r.Next dest c).1 =
      (match (r.s.Next c).1 with
        | (_, some err) => some err
        | (false, none) => some GoError.EOF
        | (true, none) => none) ∧
    ((r.s.Next c).1 ≠ (true, none) → (r.Next dest c).2.1 = dest) ∧
    ((r.s.Next c).1 = (true, none) → (r.Next dest c).2.1
        = (List.range dest.length).map (fun i => (r.s.Next c).2.1.ScanValue i)) ∧
    (r.Next dest c).2.2.1.s = (r.s.Next c).2.1 ∧
    (r.Next dest c).2.2.2 = (r.s.Next c).2.2 := by
  unfold rowsImpl.Next
  rcases hN : r.s.Next c with ⟨⟨ok, err⟩, s', c'⟩
  cases err <;> cases ok <;> simp

/-- A step that reports no row and no error leaves the statement exhausted. -/
theorem Stmt_Next_end_exhausted (s : Stmt) (c : Conn) (h : (s.Next c).1 = (false, none)) :
    (s.Next c).2.1.state = ExecState.exhausted := by
  obtain ⟨pc, acc, cn, prog, ins, chg, pending, cur, state, bc, runs⟩ := s
  cases state <;> rcases pending with _ | ⟨ev, rest⟩ <;> try cases ev
  all_goals simp_all [Stmt.Next, Stmt.error]

/-- On an exhausted statement `rowsImpl.Next` returns `io.EOF` and changes
nothing. -/
theorem rowsImpl_Next_exhausted (r : rowsImpl) (dest : List Value) (c : Conn)
    (h : r.s.state = ExecState.exhausted) : r.Next dest c = (some GoError.EOF, dest, r, c) := by
  unfold rowsImpl.Next Stmt.Next
  simp [h]

theorem rowsImpl_NextAll_exhausted (dests : List (List Value)) (r : rowsImpl) (c : Conn)
    (h : r.s.state = ExecState.exhausted) :
    r.NextAll dests c = (dests.map (fun d => (some GoError.EOF, d)), r, c) := by
  induction dests with
  | nil => rfl
  | cons d more ih =>
    unfold rowsImpl.NextAll
    rw [rowsImpl_Next_exhausted r d c h]
    simp only [ih, List.map_cons]

/-- C8. `rowsImpl.Next` returns `io.EOF` exactly when the statement step reports
no row and no error, returns the step's error unchanged when it reports one,
and returns nil exactly when the step reports a row.  A call that returns
`io.EOF` leaves the destination slots unmodified, and so does every later call
on the same cursor, each of which returns `io.EOF` again. -/
theorem rowsImpl_Next_EOF_distinct_and_idempotent (r : rowsImpl) (dest : List Value)
    (c : Conn) :
    ((r.Next dest c).1 = some GoError.EOF ↔ (r.s.Next c).1 = (false, none)) ∧
    (∀ err, (r.s.Next c).1.2 = some err → (r.Next dest c).1 = some err) ∧
    ((r.Next dest c).1 = none ↔ (r.s.Next c).1 = (true, none)) ∧
    ((r.Next dest c).1 = some GoError.EOF →
      (r.Next dest c).2.1 = dest ∧
      ∀ dests : List (List Value),
        ((r.Next dest c).2.2.1.NextAll dests (r.Next dest c).2.2.2).1
          = dests.map (fun d => (some GoError.EOF, d))) := by
  obtain ⟨hret, hkeep, _, hs, _⟩ := rowsImpl_Next_cases r dest c
  have hne := Stmt_Next_error_ne_EOF r.s c
  have hiff : (r.Next dest c).1 = some GoError.EOF ↔ (r.s.Next c).1 = (false, none) := by
    rw [hret]
    rcases hN : (r.s.Next c).1 with ⟨ok, err⟩
    rw [hN] at hne
    cases err <;> cases ok <;> simp_all
  refine ⟨hiff, ?_, ?_, ?_⟩
  · intro err herr
    rw [hret]
    rcases hN : (r.s.Next c).1 with ⟨ok, e⟩
    rw [hN] at herr
    simp only at herr
    subst herr
    cases ok <;> rfl
  · rw [hret]
    rcases hN : (r.s.Next c).1 with ⟨ok, err⟩
    cases err <;> cases ok <;> simp
  · intro hEOF
    have hend := hiff.1 hEOF
    have hex : (r.Next dest c).2.2.1.s.state = ExecState.exhausted := by
      rw [hs]; exact Stmt_Next_end_exhausted r.s c hend
    refine ⟨hkeep (by rw [hend]; simp), ?_⟩
    intro dests
    rw [rowsImpl_NextAll_exhausted dests _ _ hex]

/-- C8 at a concrete input: a cursor over a two-row result.  The first two
calls deliver the rows, the third returns `io.EOF`, and so do the fourth and
fifth, with their destination slots untouched. -/
theorem rowsImpl_Next_EOF_distinct_and_idempotent_witness :
    (rowsImpl.NextAll { s := exSelect, columnNames := none }
        [[Value.null], [Value.null], [Value.null], [Value.bool true], [Value.string "x"]]
        exConn).1
      = [(none, [Value.int64 7]), (none, [Value.int64 8]), (some GoError.EOF, [Value.null]),
          (some GoError.EOF, [Value.bool true]), (some GoError.EOF, [Value.string "x"])] ∧
    ((rowsImpl.Next
        (rowsImpl.NextAll { s := exSelect, columnNames := none }
          [[Value.null], [Value.null]] exConn).2.1 [Value.null] exConn).2.2.1.NextAll
        [[Value.bool true], [Value.string "x"]] exConn).1
      = [(some GoError.EOF, [Value.bool true]), (some GoError.EOF, [Value.string "x"])] :=
  ⟨by decide,
    ((rowsImpl_Next_EOF_distinct_and_idempotent
      (rowsImpl.NextAll { s := exSelect, columnNames := none }
        [[Value.null], [Value.null]] exConn).2.1 [Value.null] exConn).2.2.2
      (by decide)).2 [[Value.bool true], [Value.string "x"]]⟩


/-! ### Backup progress -/

theorem ceil_div_eq (p k : Nat) (hk : 0 < k) :
    ⌈(p : ℚ) / (k : ℚ)⌉₊ = (p + k - 1) / k := by
  have hkq : (0 : ℚ) < (k : ℚ) := by exact_mod_cast hk
  apply le_antisymm
  · rw [Nat.ceil_le, div_le_iff₀ hkq]
    have h1 : p ≤ (p + k - 1) / k * k := by
      have hdm := Nat.div_add_mod (p + k - 1) k
      have hm := Nat.mod_lt (p + k - 1) hk
      rw [Nat.mul_comm] at hdm
      generalize (p + k - 1) / k * k = t at hdm ⊢
      generalize (p + k - 1) % k = m at hdm hm
      omega
    exact_mod_cast h1
  · have h2 : (p : ℚ) / (k : ℚ) ≤ (⌈(p : ℚ) / (k : ℚ)⌉₊ : ℚ) := Nat.le_ceil _
    rw [div_le_iff₀ hkq] at h2
    have h3 : p ≤ ⌈(p : ℚ) / (k : ℚ)⌉₊ * k := by exact_mod_cast h2
    have h4 : p + k - 1 < (⌈(p : ℚ) / (k : ℚ)⌉₊ + 1) * k := by
      rw [Nat.add_mul]; omega
    exact Nat.lt_succ_iff.mp ((Nat.div_lt_iff_lt_mul hk).2 h4)

theorem Backup_Step_all_ok (b : Backup) (npage : Int) (h : ∀ rv ∈ b.faults, rv = SQLITE_OK) :
    (b.Step npage).1 = SQLITE_OK ∧
    (b.Step npage).2.remaining = b.remaining - b.copied npage ∧
    (b.Step npage).2.total = b.total ∧
    (∀ rv ∈ (b.Step npage).2.faults, rv = SQLITE_OK) := by
  unfold Backup.Step
  rcases hf : b.faults with _ | ⟨rv, rest⟩
  · simp
  · rw [hf] at h
    have hrv : rv = SQLITE_OK := h rv (List.mem_cons_self _ _)
    have hrest : ∀ x ∈ rest, x = SQLITE_OK := fun x hx => h x (List.mem_cons_of_mem _ hx)
    subst hrv
    exact ⟨by simp, by simp, by simp, by simpa using hrest⟩

theorem Backup_runLoop_done (K : Int) (fuel : Nat) (b : Backup) (hr : b.remaining = 0) :
    Backup.runLoop K (fuel + 1) b = (none, []) := by
  simp only [Backup.runLoop, hr, if_true]

theorem Backup_runLoop_step (K : Int) (fuel : Nat) (b : Backup) (hr : b.remaining ≠ 0)
    (hok : (b.Step K).1 = SQLITE_OK) :
    Backup.runLoop K (fuel + 1) b
      = ((Backup.runLoop K fuel (b.Step K).2).1,
          (b.Step K).2.Status :: (Backup.runLoop K fuel (b.Step K).2).2) := by
  have hnb : ¬ (SQLITE_OK = SQLITE_BUSY ∨ SQLITE_OK = SQLITE_LOCKED) := by decide
  simp only [Backup.runLoop, hr, if_false, hnb, hok, ne_eq, not_true_eq_false]

theorem Backup_runLoop_progress (K : Int) (hK : 0 < K) :
    ∀ (fuel : Nat) (b : Backup), (∀ rv ∈ b.faults, rv = SQLITE_OK) → b.remaining < fuel →
      (Backup.runLoop K fuel b).1 = none ∧
      (Backup.runLoop K fuel b).2.length = (b.remaining + K.toNat - 1) / K.toNat ∧
      (∀ s ∈ (Backup.runLoop K fuel b).2, s.Remaining ≤ b.remaining ∧ s.PageCount = b.total) ∧
      List.Pairwise (fun x y => x ≥ y)
        ((Backup.runLoop K fuel b).2.map BackupStatus.Remaining) ∧
      (∀ s, (Backup.runLoop K fuel b).2.getLast? = some s → s.Remaining = 0) := by
  have hk : 0 < K.toNat := by omega
  intro fuel
  induction fuel with
  | zero => intro b _ hlt; omega
  | succ fuel ih =>
    intro b hok hlt
    by_cases hr : b.remaining = 0
    · rw [Backup_runLoop_done K fuel b hr]
      refine ⟨rfl, ?_, ?_, List.Pairwise.nil, ?_⟩
      · rw [hr, Nat.zero_add]
        exact (Nat.div_eq_of_lt (by omega)).symm
      · intro s hs; simp at hs
      · intro s hs; simp at hs
    · obtain ⟨hrv, hrem, htot, hok'⟩ := Backup_Step_all_ok b K hok
      have hcop : b.copied K = min K.toNat b.remaining := by
        unfold Backup.copied
        simp [not_le.mpr hK]
      rw [hcop] at hrem
      have hlt' : (b.Step K).2.remaining < fuel := by rw [hrem]; omega
      obtain ⟨ie, il, ib, ip, ig⟩ := ih (b.Step K).2 hok' hlt'
      rw [Backup_runLoop_step K fuel b hr hrv]
      refine ⟨ie, ?_, ?_, ?_, ?_⟩
      · simp only [List.length_cons, il, hrem]
        by_cases hle : b.remaining ≤ K.toNat
        · rw [min_eq_right hle, Nat.sub_self, Nat.zero_add, Nat.div_eq_of_lt (by omega)]
          exact (Nat.div_eq_of_lt_le (by omega) (by omega)).symm
        · rw [min_eq_left (by omega)]
          have hsplit : b.remaining + K.toNat - 1
              = (b.remaining - K.toNat + K.toNat - 1) + K.toNat := by omega
          rw [hsplit, Nat.add_div_right _ hk]
      · intro s hs
        rcases List.mem_cons.1 hs with h | h
        · subst h
          simp only [Backup.Status]
          exact ⟨by rw [hrem]; omega, htot⟩
        · exact ⟨le_trans (ib s h).1 (by rw [hrem]; omega), (ib s h).2.trans htot⟩
      · simp only [List.map_cons, List.pairwise_cons]
        refine ⟨?_, ip⟩
        intro y hy
        obtain ⟨s, hs, rfl⟩ := List.mem_map.1 hy
        exact (ib s hs).1
      · intro s hs
        rcases hsent : (Backup.runLoop K fuel (b.Step K).2).2 with _ | ⟨t, more⟩
        · rw [hsent] at hs il
          simp only [List.getLast?_singleton, Option.some.injEq] at hs
          subst hs
          simp only [Backup.Status]
          simp only [List.length_nil] at il
          by_contra hne
          have : 1 ≤ ((b.Step K).2.remaining + K.toNat - 1) / K.toNat :=
            (Nat.one_le_div_iff hk).2 (by omega)
          omega
        · rw [hsent] at hs ig
          rw [List.getLast?_cons_cons] at hs
          exact ig s hs

/-- C10.  For a source of `P` pages and pages-per-step `K > 0`, a `Run` that
meets no engine error returns nil, sends exactly `ceil(P/K)` snapshots to the
sink, each snapshot's pages-remaining is at least that of every later one, and
the last snapshot has pages-remaining 0 (there is one as soon as `P > 0`).
Every snapshot reports `P` total pages. -/
theorem Backup_Run_progress_protocol (P : Nat) (K : Int) (delay : Int) (faults : List Int)
    (hK : 0 < K) (hOK : ∀ rv ∈ faults, rv = SQLITE_OK) :
    ((NewBackup P faults).Run K delay).1 = none ∧
    ((NewBackup P faults).Run K delay).2.length = ⌈(P : ℚ) / (K : ℚ)⌉₊ ∧
    List.Pairwise (fun x y => x ≥ y)
      (((NewBackup P faults).Run K delay).2.map BackupStatus.Remaining) ∧
    (∀ s, ((NewBackup P faults).Run K delay).2.getLast? = some s → s.Remaining = 0) ∧
    (0 < P → ((NewBackup P faults).Run K delay).2 ≠ []) ∧
    (∀ s ∈ ((NewBackup P faults).Run K delay).2, s.PageCount = P) := by
  have hk : 0 < K.toNat := by omega
  have hrun : (NewBackup P faults).Run K delay
      = Backup.runLoop K (P + faults.length + 1) (NewBackup P faults) := by
    unfold Backup.Run
    simp [not_le.mpr hK, NewBackup]
  obtain ⟨he, hl, hb, hp, hg⟩ := Backup_runLoop_progress K hK (P + faults.length + 1)
    (NewBackup P faults) hOK (by simp [NewBackup]; omega)
  rw [hrun]
  have hKq : ((K : Int) : ℚ) = ((K.toNat : Nat) : ℚ) := by
    have : ((K.toNat : Nat) : Int) = K := Int.toNat_of_nonneg (le_of_lt hK)
    exact_mod_cast this.symm
  have hlen : (Backup.runLoop K (P + faults.length + 1) (NewBackup P faults)).2.length
      = (P + K.toNat - 1) / K.toNat := hl
  refine ⟨he, ?_, hp, hg, ?_, fun s hs => (hb s hs).2⟩
  · rw [hlen, hKq, ceil_div_eq P K.toNat hk]
  · intro hP hnil
    rw [hnil] at hlen
    have : 1 ≤ (P + K.toNat - 1) / K.toNat := (Nat.one_le_div_iff hk).2 (by omega)
    simp at hlen
    omega

/-- C10 at the input of `TestBackup`, taking the 1000 rows to fill 25 pages:
`Run(10, 0, sink)` returns nil and sends three snapshots, the last with nothing
remaining. -/
theorem Backup_Run_progress_protocol_witness :
    ((NewBackup 25 []).Run 10 0).1 = none ∧
    ((NewBackup 25 []).Run 10 0).2.length = ⌈((25 : Nat) : ℚ) / ((10 : Int) : ℚ)⌉₊ ∧
    ((NewBackup 25 []).Run 10 0).2
      = [{ Remaining := 15, PageCount := 25 }, { Remaining := 5, PageCount := 25 },
          { Remaining := 0, PageCount := 25 }] :=
  have h := Backup_Run_progress_protocol 25 10 0 [] (by decide) (by decide)
  ⟨h.1, h.2.1, by decide⟩


/-! ### Positional binding -/

/-- The verdict of `BindByIndex` does not depend on the bind calls made before. -/
theorem BindByIndex_verdict_frame (s : Stmt) (calls : List (Int × Value)) (index : Int)
    (v : Value) :
    (Stmt.BindByIndex { s with bindCalls := calls } index v).1 = (s.BindByIndex index v).1 := by
  unfold Stmt.BindByIndex
  simp only [Stmt.error]
  split_ifs <;> rfl

theorem bindCallsFrom_length (args : List Value) :
    ∀ i : Nat, (stmtImpl.bindCallsFrom i args).length = args.length := by
  induction args with
  | nil => intro i; rfl
  | cons v rest ih => intro i; simp [stmtImpl.bindCallsFrom, ih]

/-- Entry `m` of the expected calls is `BindByIndex(i + m + 1, args[m])`. -/
theorem bindCallsFrom_getElem? (args : List Value) :
    ∀ (i m : Nat), (stmtImpl.bindCallsFrom i args)[m]?
      = args[m]?.map (fun v => (((i + m : Nat) : Int) + 1, v)) := by
  induction args with
  | nil => intro i m; simp [stmtImpl.bindCallsFrom]
  | cons v rest ih =>
    intro i m
    cases m with
    | zero => simp [stmtImpl.bindCallsFrom]
    | succ m =>
      simp only [stmtImpl.bindCallsFrom, List.getElem?_cons_succ, ih (i + 1) m]
      have : i + 1 + m = i + (m + 1) := by omega
      rw [this]

/-- When every bind succeeds the loop makes all the calls and returns nil. -/
theorem bindFrom_all_succeed (args : List Value) :
    ∀ (s : Stmt) (i : Nat),
      (∀ m v, args[m]? = some v → (s.BindByIndex (((i + m : Nat) : Int) + 1) v).1 = none) →
      (stmtImpl.bindFrom s i args).1 = none ∧
      (stmtImpl.bindFrom s i args).2.bindCalls
        = s.bindCalls ++ stmtImpl.bindCallsFrom i args := by
  induction args with
  | nil => intro s i _; simp [stmtImpl.bindFrom, stmtImpl.bindCallsFrom]
  | cons v rest ih =>
    intro s i hall
    have h0 : (s.BindByIndex ((i : Int) + 1) v).1 = none := by
      have := hall 0 v (by simp)
      simpa using this
    have hfr := BindByIndex_frame s ((i : Int) + 1) v
    rcases hB : s.BindByIndex ((i : Int) + 1) v with ⟨e, s'⟩
    rw [hB] at h0 hfr
    simp only at h0 hfr
    subst h0
    have hrest : ∀ m w, rest[m]? = some w →
        (s'.BindByIndex (((i + 1 + m : Nat) : Int) + 1) w).1 = none := by
      intro m w hm
      rw [hfr, BindByIndex_verdict_frame]
      have := hall (m + 1) w (by simpa using hm)
      have hidx : i + (m + 1) = i + 1 + m := by omega
      rw [hidx] at this
      exact this
    obtain ⟨ie, ic⟩ := ih s' (i + 1) hrest
    have hstep : stmtImpl.bindFrom s i (v :: rest) = stmtImpl.bindFrom s' (i + 1) rest := by
      rw [stmtImpl.bindFrom, hB]
    rw [hstep]
    refine ⟨ie, ?_⟩
    rw [ic, hfr]
    simp [stmtImpl.bindCallsFrom]

/-- When the bind at position `j` is the first to fail, the loop returns its
error after the calls for positions `0..j`. -/
theorem bindFrom_first_failure (args : List Value) :
    ∀ (s : Stmt) (i j : Nat) (v : Value) (e : GoError), args[j]? = some v →
      (s.BindByIndex (((i + j : Nat) : Int) + 1) v).1 = some e →
      (∀ m w, m < j → args[m]? = some w →
        (s.BindByIndex (((i + m : Nat) : Int) + 1) w).1 = none) →
      (stmtImpl.bindFrom s i args).1 = some e ∧
      (stmtImpl.bindFrom s i args).2.bindCalls
        = s.bindCalls ++ stmtImpl.bindCallsFrom i (args.take (j + 1)) := by
  induction args with
  | nil => intro s i j v e hj; simp at hj
  | cons a rest ih =>
    intro s i j v e hj hfail hbefore
    have hfr := BindByIndex_frame s ((i : Int) + 1) a
    cases j with
    | zero =>
      simp only [List.getElem?_cons_zero, Option.some.injEq] at hj
      subst hj
      simp only [Nat.add_zero] at hfail
      rcases hB : s.BindByIndex ((i : Int) + 1) a with ⟨e', s'⟩
      rw [hB] at hfail hfr
      simp only at hfail hfr
      subst hfail
      have hstep : stmtImpl.bindFrom s i (a :: rest) = (some e, s') := by
        rw [stmtImpl.bindFrom, hB]
      rw [hstep]
      refine ⟨rfl, ?_⟩
      rw [hfr]
      simp [stmtImpl.bindCallsFrom]
    | succ j =>
      have h0 : (s.BindByIndex ((i : Int) + 1) a).1 = none := by
        have := hbefore 0 a (by omega) (by simp)
        simpa using this
      rcases hB : s.BindByIndex ((i : Int) + 1) a with ⟨e', s'⟩
      rw [hB] at h0 hfr
      simp only at h0 hfr
      subst h0
      have hj' : rest[j]? = some v := by simpa using hj
      have hfail' : (s'.BindByIndex (((i + 1 + j : Nat) : Int) + 1) v).1 = some e := by
        rw [hfr, BindByIndex_verdict_frame]
        have hidx : i + (j + 1) = i + 1 + j := by omega
        rw [hidx] at hfail
        exact hfail
      have hbefore' : ∀ m w, m < j → rest[m]? = some w →
          (s'.BindByIndex (((i + 1 + m : Nat) : Int) + 1) w).1 = none := by
        intro m w hm hw
        rw [hfr, BindByIndex_verdict_frame]
        have := hbefore (m + 1) w (by omega) (by simpa using hw)
        have hidx : i + (m + 1) = i + 1 + m := by omega
        rw [hidx] at this
        exact this
      obtain ⟨ie, ic⟩ := ih s' (i + 1) j v e hj' hfail' hbefore'
      have hstep : stmtImpl.bindFrom s i (a :: rest) = stmtImpl.bindFrom s' (i + 1) rest := by
        rw [stmtImpl.bindFrom, hB]
      rw [hstep]
      refine ⟨ie, ?_⟩
      rw [ic, hfr]
      simp [stmtImpl.bindCallsFrom]

/-- Whatever the verdicts, the calls made are those for an initial segment of
the argument list. -/
theorem bindFrom_calls_initial_segment (args : List Value) :
    ∀ (s : Stmt) (i : Nat), ∃ k, k ≤ args.length ∧
      (stmtImpl.bindFrom s i args).2.bindCalls
        = s.bindCalls ++ stmtImpl.bindCallsFrom i (args.take k) := by
  induction args with
  | nil => intro s i; exact ⟨0, le_refl _, by simp [stmtImpl.bindFrom, stmtImpl.bindCallsFrom]⟩
  | cons a rest ih =>
    intro s i
    have hfr := BindByIndex_frame s ((i : Int) + 1) a
    rcases hB : s.BindByIndex ((i : Int) + 1) a with ⟨e', s'⟩
    rw [hB] at hfr
    simp only at hfr
    cases e' with
    | some err =>
      refine ⟨1, by simp, ?_⟩
      have hstep : stmtImpl.bindFrom s i (a :: rest) = (some err, s') := by
        rw [stmtImpl.bindFrom, hB]
      rw [hstep, hfr]
      simp [stmtImpl.bindCallsFrom]
    | none =>
      obtain ⟨k, hk, hc⟩ := ih s' (i + 1)
      refine ⟨k + 1, by simp; omega, ?_⟩
      have hstep : stmtImpl.bindFrom s i (a :: rest) = stmtImpl.bindFrom s' (i + 1) rest := by
        rw [stmtImpl.bindFrom, hB]
      rw [hstep, hc, hfr]
      simp [stmtImpl.bindCallsFrom]


theorem bind_eq_bindFrom (s : stmtImpl) (args : List Value) :
    (s.bind args).1 = (stmtImpl.bindFrom s.s 0 args).1 ∧
    (s.bind args).2.s = (stmtImpl.bindFrom s.s 0 args).2 := by
  unfold stmtImpl.bind
  rcases stmtImpl.bindFrom s.s 0 args with ⟨e, s'⟩
  exact ⟨rfl, rfl⟩

/-- C11. Positional binding order and short-circuit.  `stmtImpl.bind` appends
its `BindByIndex` calls to the statement's record; call number `m` (from 0) is
`BindByIndex(m+1, args[m])`, and there are at most `len(args)` of them.  If
every bind succeeds, `bind` makes exactly `len(args)` calls and returns nil.  If
the bind at position `j` is the first to fail, `bind` returns that error after
exactly `j+1` calls, so no later argument is bound.  Whenever `bind` fails,
`stmtImpl.Exec` returns that error and no `Result` without running the
statement (run count, cursor and connection are as before), and
`stmtImpl.Query` returns that error and no rows cursor. -/
theorem bind_positional_order_and_short_circuit (s : stmtImpl) (args : List Value) :
    (s.bind args).2.s.bindCalls = s.s.bindCalls ++ s.bindLog args ∧
    (s.bindLog args).length ≤ args.length ∧
    (∀ m : Nat, m < (s.bindLog args).length →
      (s.bindLog args)[m]? = args[m]?.map (fun v => ((m : Int) + 1, v))) ∧
    ((∀ (m : Nat) (v : Value), args[m]? = some v → (s.s.BindByIndex ((m : Int) + 1) v).1 = none) →
      (s.bind args).1 = none ∧ (s.bindLog args).length = args.length) ∧
    (∀ (j : Nat) (v : Value) (e : GoError), args[j]? = some v → (s.s.BindByIndex ((j : Int) + 1) v).1 = some e →
      (∀ (m : Nat) (w : Value), m < j → args[m]? = some w → (s.s.BindByIndex ((m : Int) + 1) w).1 = none) →
      (s.bind args).1 = some e ∧ (s.bindLog args).length = j + 1) ∧
    (∀ e, (s.bind args).1 = some e → ∀ c : Conn,
      (s.Exec args c).1 = (none, some e) ∧
      (s.Exec args c).2.1.s.runs = s.s.runs ∧
      (s.Exec args c).2.1.s.pending = s.s.pending ∧
      (s.Exec args c).2.1.s.state = s.s.state ∧
      (s.Exec args c).2.2 = c ∧
      (s.Query args).1 = (none, some e)) := by
  obtain ⟨hb1, hb2⟩ := bind_eq_bindFrom s args
  have hlog : ∀ cs : List (Int × Value),
      (stmtImpl.bindFrom s.s 0 args).2.bindCalls = s.s.bindCalls ++ cs →
      s.bindLog args = cs := by
    intro cs hcs
    unfold stmtImpl.bindLog
    rw [hb2, hcs, List.drop_left]
  obtain ⟨k, hk, hcalls⟩ := bindFrom_calls_initial_segment args s.s 0
  have hlogk := hlog _ hcalls
  refine ⟨?_, ?_, ?_, ?_, ?_, ?_⟩
  · rw [hb2, hlogk, hcalls]
  · rw [hlogk, bindCallsFrom_length, List.length_take]
    omega
  · intro m hm
    rw [hlogk] at hm ⊢
    rw [bindCallsFrom_length, List.length_take] at hm
    rw [bindCallsFrom_getElem?, List.getElem?_take_of_lt (by omega)]
    simp
  · intro hall
    obtain ⟨he, hc⟩ := bindFrom_all_succeed args s.s 0
      (fun m v hm => by simpa using hall m v hm)
    refine ⟨by rw [hb1, he], ?_⟩
    rw [hlog _ hc, bindCallsFrom_length]
  · intro j v e hj hfail hbefore
    obtain ⟨he, hc⟩ := bindFrom_first_failure args s.s 0 j v e hj
      (by simpa using hfail) (fun m w hm hw => by simpa using hbefore m w hm hw)
    refine ⟨by rw [hb1, he], ?_⟩
    have hjlt : j < args.length := by
      by_contra hcon
      rw [List.getElem?_eq_none (by omega)] at hj
      simp at hj
    rw [hlog _ hc, bindCallsFrom_length, List.length_take]
    omega
  · intro e he c
    have hframe := bindFrom_frame args s.s 0
    have hbind : s.bind args = (some e, { s := (stmtImpl.bindFrom s.s 0 args).2 }) := by
      have h2 : (s.bind args).2 = { s := (stmtImpl.bindFrom s.s 0 args).2 } := by
        unfold stmtImpl.bind
        rcases stmtImpl.bindFrom s.s 0 args with ⟨e', s'⟩
        rfl
      exact Prod.ext he h2
    have hexec : s.Exec args c
        = ((none, some e), { s := (stmtImpl.bindFrom s.s 0 args).2 }, c) := by
      unfold stmtImpl.Exec
      rw [hbind]
    have hquery : (s.Query args).1 = (none, some e) := by
      unfold stmtImpl.Query
      rw [hbind]
    rw [hexec]
    refine ⟨rfl, ?_, ?_, ?_, rfl, hquery⟩
    · show (stmtImpl.bindFrom s.s 0 args).2.runs = _
      rw [hframe]
    · show (stmtImpl.bindFrom s.s 0 args).2.pending = _
      rw [hframe]
    · show (stmtImpl.bindFrom s.s 0 args).2.state = _
      rw [hframe]

/-- C11 at concrete inputs, on the three-parameter statement whose binder
refuses a `time.Time`.  With three accepted arguments `bind` makes the calls
`(1, 10)`, `(2, "x")`, `(3, nil)` and returns nil.  With the `time.Time` at
position 1 it returns the mismatch error after the two calls for positions 0
and 1; the third argument is not bound, `Exec` does not run the statement and
`Query` returns no cursor. -/
theorem bind_positional_order_and_short_circuit_witness :
    ((stmtImpl.bind { s := exThreeParams }
        [Value.int64 10, Value.string "x", Value.null]).1 = none ∧
      stmtImpl.bindLog { s := exThreeParams } [Value.int64 10, Value.string "x", Value.null]
        = [(1, Value.int64 10), (2, Value.string "x"), (3, Value.null)]) ∧
    ((stmtImpl.bind { s := exThreeParams }
        [Value.int64 10, Value.time 0, Value.null]).1 = some (GoError.engine SQLITE_MISMATCH) ∧
      stmtImpl.bindLog { s := exThreeParams } [Value.int64 10, Value.time 0, Value.null]
        = [(1, Value.int64 10), (2, Value.time 0)] ∧
      (stmtImpl.Exec { s := exThreeParams }
        [Value.int64 10, Value.time 0, Value.null] exConn).2.1.s.runs = 0 ∧
      (stmtImpl.Query { s := exThreeParams }
        [Value.int64 10, Value.time 0, Value.null]).1
          = (none, some (GoError.engine SQLITE_MISMATCH))) :=
  have hok := (bind_positional_order_and_short_circuit { s := exThreeParams }
    [Value.int64 10, Value.string "x", Value.null]).2.2.2.1 (by
      intro m v hm
      match m, hm with
      | 0, hm => simp at hm; subst hm; decide
      | 1, hm => simp at hm; subst hm; decide
      | 2, hm => simp at hm; subst hm; decide
      | m + 3, hm => simp at hm)
  have h := bind_positional_order_and_short_circuit { s := exThreeParams }
    [Value.int64 10, Value.time 0, Value.null]
  have hfail := h.2.2.2.2.1 1 (Value.time 0) (GoError.engine SQLITE_MISMATCH) rfl
    (by decide) (by
      intro m w hlt hm
      match m, hlt, hm with
      | 0, _, hm => simp at hm; subst hm; decide)
  have hcons := h.2.2.2.2.2 (GoError.engine SQLITE_MISMATCH) hfail.1 exConn
  ⟨⟨hok.1, by decide⟩, ⟨hfail.1, by decide, hcons.2.1, hcons.2.2.2.2.2⟩⟩

end Sqlite
